import Mathlib

set_option linter.unusedVariables false

/-!
Shallow embedding of the dream-research simulation/evolution core
(flows/core/thermodynamics.py, energy_calculator.py, monte_carlo.py,
llm_client.py, personality_genetics.py, personality_evolution.py)
together with theorems settling the frozen claims about it.

Python floats are modelled by `PyFloat`: a real number or one of the
IEEE special values +inf, -inf, nan.  Randomness (numpy draws, the
generator backend) is modelled by explicit oracle parameters.
-/

/-- Model of a Python float: finite real, +inf, -inf or nan.
Finite arithmetic is exact (no rounding is modelled); the special
values follow IEEE-754 rules as implemented by numpy. -/
inductive PyFloat where
  | fin (x : ℝ)
  | pinf
  | ninf
  | nan

namespace PyFloat

/-- Whether the float is finite (not inf, -inf or nan). -/
def isFinite : PyFloat → Bool
  | fin _ => true
  | _ => false

/-- IEEE negation. -/
def neg : PyFloat → PyFloat
  | fin x => fin (-x)
  | pinf => ninf
  | ninf => pinf
  | nan => nan

/-- IEEE addition. -/
def add : PyFloat → PyFloat → PyFloat
  | nan, _ => nan
  | _, nan => nan
  | fin x, fin y => fin (x + y)
  | fin _, pinf => pinf
  | fin _, ninf => ninf
  | pinf, fin _ => pinf
  | pinf, pinf => pinf
  | pinf, ninf => nan
  | ninf, fin _ => ninf
  | ninf, pinf => nan
  | ninf, ninf => ninf

/-- IEEE subtraction, `a - b = a + (-b)`. -/
def sub (a b : PyFloat) : PyFloat := a.add b.neg

/-- IEEE `<=`: any comparison involving nan is false. -/
def le : PyFloat → PyFloat → Prop
  | nan, _ => False
  | _, nan => False
  | ninf, _ => True
  | fin _, pinf => True
  | fin x, fin y => x ≤ y
  | fin _, ninf => False
  | pinf, pinf => True
  | pinf, _ => False

/-- IEEE `<`: any comparison involving nan is false. -/
def lt : PyFloat → PyFloat → Prop
  | nan, _ => False
  | _, nan => False
  | ninf, ninf => False
  | ninf, _ => True
  | fin x, fin y => x < y
  | fin _, pinf => True
  | fin _, ninf => False
  | pinf, _ => False

noncomputable instance decLe : ∀ a b : PyFloat, Decidable (le a b) := by
  intro a b
  cases a <;> cases b <;> simp only [le] <;> infer_instance

noncomputable instance decLt : ∀ a b : PyFloat, Decidable (lt a b) := by
  intro a b
  cases a <;> cases b <;> simp only [lt] <;> infer_instance

/-- `np.exp` on a Python float. -/
noncomputable def pyExp : PyFloat → PyFloat
  | fin x => fin (Real.exp x)
  | pinf => pinf
  | ninf => fin 0
  | nan => nan

/-- IEEE division (numpy semantics: x/0 is ±inf for x ≠ 0, 0/0 is nan). -/
noncomputable def div : PyFloat → PyFloat → PyFloat
  | nan, _ => nan
  | _, nan => nan
  | fin x, fin y =>
      if y = 0 then (if x = 0 then nan else if 0 < x then pinf else ninf)
      else fin (x / y)
  | fin _, pinf => fin 0
  | fin _, ninf => fin 0
  | pinf, fin y => if 0 ≤ y then pinf else ninf
  | ninf, fin y => if 0 ≤ y then ninf else pinf
  | pinf, pinf => nan
  | pinf, ninf => nan
  | ninf, pinf => nan
  | ninf, ninf => nan

/-- IEEE multiplication. -/
noncomputable def mul : PyFloat → PyFloat → PyFloat
  | nan, _ => nan
  | _, nan => nan
  | fin x, fin y => fin (x * y)
  | fin x, pinf => if 0 < x then pinf else if x < 0 then ninf else nan
  | fin x, ninf => if 0 < x then ninf else if x < 0 then pinf else nan
  | pinf, fin y => if 0 < y then pinf else if y < 0 then ninf else nan
  | ninf, fin y => if 0 < y then ninf else if y < 0 then pinf else nan
  | pinf, pinf => pinf
  | pinf, ninf => ninf
  | ninf, pinf => ninf
  | ninf, ninf => pinf

/-- `np.log` on a nonnegative real argument: -inf at 0, nan below 0. -/
noncomputable def pyLog (x : ℝ) : PyFloat :=
  if 0 < x then fin (Real.log x) else if x = 0 then ninf else nan

@[simp] lemma isFinite_fin (x : ℝ) : (fin x).isFinite = true := rfl
@[simp] lemma isFinite_pinf : pinf.isFinite = false := rfl
@[simp] lemma isFinite_ninf : ninf.isFinite = false := rfl
@[simp] lemma isFinite_nan : nan.isFinite = false := rfl
@[simp] lemma add_fin_fin (x y : ℝ) : (fin x).add (fin y) = fin (x + y) := rfl
@[simp] lemma sub_fin_fin (x y : ℝ) : (fin x).sub (fin y) = fin (x + -y) := rfl
@[simp] lemma add_pinf_fin (y : ℝ) : pinf.add (fin y) = pinf := rfl
@[simp] lemma sub_pinf_fin (y : ℝ) : pinf.sub (fin y) = pinf := rfl
@[simp] lemma neg_fin (x : ℝ) : (fin x).neg = fin (-x) := rfl
@[simp] lemma mul_fin_fin (x y : ℝ) : (fin x).mul (fin y) = fin (x * y) := rfl
@[simp] lemma le_fin_fin (x y : ℝ) : le (fin x) (fin y) ↔ x ≤ y := Iff.rfl
@[simp] lemma le_pinf_fin (y : ℝ) : ¬ le pinf (fin y) := fun h => h

end PyFloat

namespace PersonalityThermodynamics

/-! ### ThermodynamicParameters defaults (thermodynamics.py lines 7-14) -/

/-- Inverse temperature scale, default 1.0. -/
def beta : ℝ := 1

/-- Critical temperature, default 1.0. -/
def T_c : ℝ := 1

/-- Temperature coupling to enthalpy, default 0.1. -/
noncomputable def alpha : ℝ := 1/10

/-- Noise scale, default 0.1. -/
noncomputable def noise_scale : ℝ := 1/10

/-- Numerical stability floor, default 1e-10. -/
noncomputable def epsilon : ℝ := 1/10000000000

/-- Phase boundary coherent to semi-coherent, from the
`phase_boundaries` dict built in `__init__` (0.8). -/
noncomputable def coherent_to_semi : ℝ := 4/5

/-- Phase boundary semi-coherent to chaotic, from the
`phase_boundaries` dict built in `__init__` (1.5). -/
noncomputable def semi_to_chaotic : ℝ := 3/2

/-- `PersonalityThermodynamics._determine_phase(coherence, temperature)`
(thermodynamics.py lines 158-164): only the temperature is inspected. -/
noncomputable def determine_phase (coherence temperature : ℝ) : String :=
  if temperature < coherent_to_semi then "coherent"
  else if temperature < semi_to_chaotic then "semi-coherent"
  else "chaotic"

end PersonalityThermodynamics

namespace MonteCarloAnalyzer

/-- `MonteCarloAnalyzer._determine_phase(temperature, coherence)`
(monte_carlo.py lines 91-97): compares the temperature against
`self.thermodynamics.phase_boundaries`; coherence is never read. -/
noncomputable def determine_phase (temperature coherence : ℝ) : String :=
  if temperature < PersonalityThermodynamics.coherent_to_semi then "coherent"
  else if temperature < PersonalityThermodynamics.semi_to_chaotic then "semi-coherent"
  else "chaotic"

end MonteCarloAnalyzer

/-- C5: phase classification is deterministic with fixed boundaries
T1 = 0.8 < T2 = 1.5 and partitions temperature into exactly the three
ordered labels: coherent iff T < T1, semi-coherent iff T1 <= T < T2,
chaotic iff T >= T2; the two implementations agree. -/
theorem c5_phase_partition (coherence temperature : ℝ) :
    (PersonalityThermodynamics.determine_phase coherence temperature = "coherent"
      ↔ temperature < 4/5)
    ∧ (PersonalityThermodynamics.determine_phase coherence temperature = "semi-coherent"
      ↔ (4/5 ≤ temperature ∧ temperature < 3/2))
    ∧ (PersonalityThermodynamics.determine_phase coherence temperature = "chaotic"
      ↔ 3/2 ≤ temperature)
    ∧ MonteCarloAnalyzer.determine_phase temperature coherence
      = PersonalityThermodynamics.determine_phase coherence temperature := by
  unfold PersonalityThermodynamics.determine_phase MonteCarloAnalyzer.determine_phase
  unfold PersonalityThermodynamics.coherent_to_semi PersonalityThermodynamics.semi_to_chaotic
  by_cases h1 : temperature < 4/5
  · rw [if_pos h1]
    exact ⟨⟨fun _ => h1, fun _ => rfl⟩,
      ⟨fun h => absurd h (by decide), fun h => absurd h1 (not_lt.2 h.1)⟩,
      ⟨fun h => absurd h (by decide), fun h => absurd h1 (not_lt.2 (by linarith))⟩,
      rfl⟩
  · by_cases h2 : temperature < 3/2
    · rw [if_neg h1, if_pos h2]
      exact ⟨⟨fun h => absurd h (by decide), fun h => absurd h h1⟩,
        ⟨fun _ => ⟨le_of_not_lt h1, h2⟩, fun _ => rfl⟩,
        ⟨fun h => absurd h (by decide), fun h => absurd h2 (not_lt.2 h)⟩,
        rfl⟩
    · rw [if_neg h1, if_neg h2]
      exact ⟨⟨fun h => absurd h (by decide), fun h => absurd h h1⟩,
        ⟨fun h => absurd h (by decide), fun h => absurd h.2 h2⟩,
        ⟨fun _ => le_of_not_lt h2, fun _ => rfl⟩,
        rfl⟩

/-- C9: the phase classifier ignores its coherence argument: two runs
with the same temperature and arbitrary different coherence inputs
return the same label, for both implementations. -/
theorem c9_phase_ignores_coherence (temperature c1 c2 : ℝ) :
    PersonalityThermodynamics.determine_phase c1 temperature
      = PersonalityThermodynamics.determine_phase c2 temperature
    ∧ MonteCarloAnalyzer.determine_phase temperature c1
      = MonteCarloAnalyzer.determine_phase temperature c2 :=
  ⟨rfl, rfl⟩

/-! ### Text splitting helpers shared by both scorers -/

/-- Helper for `pyWords`: walk the characters, breaking words at
whitespace; `acc` holds the current word reversed. -/
def wordsAux : List Char → List Char → List String
  | [], acc => if acc = [] then [] else [String.mk acc.reverse]
  | c :: rest, acc =>
      if c.isWhitespace then
        (if acc = [] then wordsAux rest [] else String.mk acc.reverse :: wordsAux rest [])
      else wordsAux rest (c :: acc)

/-- Python `str.split()` with no argument: split on runs of whitespace
and drop empty pieces. -/
def pyWords (s : String) : List String := wordsAux s.toList []

/-- Helper for `splitDot`: split at every `.` character, keeping empty
pieces, like Python `str.split('.')`. -/
def splitDotAux : List Char → List Char → List String
  | [], acc => [String.mk acc.reverse]
  | c :: rest, acc =>
      if c = '.' then String.mk acc.reverse :: splitDotAux rest []
      else splitDotAux rest (c :: acc)

/-- Python `response.split('.')`. -/
def splitDot (s : String) : List String := splitDotAux s.toList []

/-- Python truthiness of `sent.strip()`: true when the sentence has a
non-whitespace character. -/
def hasContent (s : String) : Bool := s.toList.any (fun c => !c.isWhitespace)

/-- `np.var` (population variance) of a list of naturals, as a rational. -/
def npVar (l : List ℕ) : ℚ :=
  ((l.map (fun (x : ℕ) => ((x : ℚ) - ((l.map (fun (y : ℕ) => (y : ℚ))).sum) / (l.length : ℚ)) ^ 2)).sum)
    / (l.length : ℚ)

/-- Per-sentence word counts of the non-blank sentences:
`[len(sent.split()) for sent in response.split('.') if sent.strip()]`. -/
def sentLens (response : String) : List ℕ :=
  ((splitDot response).filter hasContent).map (fun s => (pyWords s).length)

/-- Frequencies of the distinct characters of `s`:
`[response.count(c) for c in set(response)]`. -/
def charFreqs (s : String) : List ℕ :=
  s.toList.dedup.map (fun c => s.toList.count c)

/-- Frequencies of the distinct words of `ws`:
`[words.count(w) for w in set(words)]`. -/
def wordFreqs (ws : List String) : List ℕ :=
  ws.dedup.map (fun w => ws.count w)

/-- `scipy.stats.entropy` on a vector of counts: normalize to a
probability vector and return the Shannon entropy in nats. -/
noncomputable def shannonH (freqs : List ℕ) : ℝ :=
  Neg.neg ((freqs.map
    (fun (c : ℕ) => ((c : ℝ) / ((freqs.sum : ℕ) : ℝ)) * Real.log ((c : ℝ) / ((freqs.sum : ℕ) : ℝ)))).sum)

namespace PersonalityThermodynamics

/-- `PersonalityThermodynamics._measure_coherence` (thermodynamics.py
lines 66-81): 0.7 times the unique-word share (`unique_ratio` in the
source) plus 0.3 times the structural coherence
`1/(1 + var(sentence lengths))`; 0 when there are no words. -/
def measure_coherence (response : String) : ℚ :=
  if pyWords response = [] then 0
  else
    7/10 * (((pyWords response).dedup.length : ℚ) / ((pyWords response).length : ℚ))
      + 3/10 * (1 / (1 + (if sentLens response = [] then 0 else npVar (sentLens response))))

/-- `PersonalityThermodynamics._calculate_entropy` (thermodynamics.py
lines 83-98): 0 for the empty string, otherwise 0.3 times the character
entropy plus 0.7 times the word entropy (0 when there are no words). -/
noncomputable def calculate_entropy (response : String) : ℝ :=
  if response = "" then 0
  else
    3/10 * shannonH (charFreqs response)
      + 7/10 * (if pyWords response = [] then 0 else shannonH (wordFreqs (pyWords response)))

end PersonalityThermodynamics

namespace EnergyCalculator

/-- `self.k_B = 1.0`, set in `EnergyCalculator.__init__`
(energy_calculator.py line 8). -/
def k_B : ℝ := 1

/-- `EnergyCalculator._measure_coherence` (energy_calculator.py lines
52-61): `min(1.0, unique_words / total_words)`, 0 when there are no
words. -/
def measure_coherence (response : String) : ℚ :=
  if pyWords response = [] then 0
  else min 1 (((pyWords response).dedup.length : ℚ) / ((pyWords response).length : ℚ))

/-- `EnergyCalculator._calculate_entropy` (energy_calculator.py lines
63-78): Shannon entropy of the word frequency distribution
(`entropy -= p * np.log(p)` over the word frequencies), 0 when there
are no words. -/
noncomputable def calculate_entropy (response : String) : ℝ :=
  if pyWords response = [] then 0
  else ((wordFreqs (pyWords response)).map
    (fun (freq : ℕ) => -(((freq : ℝ) / ((pyWords response).length : ℝ))
      * Real.log ((freq : ℝ) / ((pyWords response).length : ℝ))))).sum

end EnergyCalculator

/-! ### Bounds on the text metrics -/

lemma list_sum_nonpos {l : List ℝ} (h : ∀ x ∈ l, x ≤ 0) : l.sum ≤ 0 := by
  induction l with
  | nil => simp
  | cons a t ih =>
      simp only [List.sum_cons]
      have ha := h a (by simp)
      have ht := ih (fun x hx => h x (by simp [hx]))
      linarith

lemma neg_p_log_p_nonneg {p : ℝ} (h0 : 0 ≤ p) (h1 : p ≤ 1) : 0 ≤ -(p * Real.log p) := by
  have hlog : Real.log p ≤ 0 := Real.log_nonpos h0 h1
  have h2 : p * Real.log p ≤ p * 0 := mul_le_mul_of_nonneg_left hlog h0
  simp only [mul_zero] at h2
  linarith

lemma shannonH_nonneg (freqs : List ℕ) (h : ∀ c ∈ freqs, 1 ≤ c) : 0 ≤ shannonH freqs := by
  unfold shannonH
  rw [neg_nonneg]
  apply list_sum_nonpos
  intro x hx
  rcases List.mem_map.1 hx with ⟨c, hc, rfl⟩
  have hc1 : 1 ≤ c := h c hc
  have hcN : c ≤ freqs.sum := List.le_sum_of_mem hc
  have hN : (0 : ℝ) < ((freqs.sum : ℕ) : ℝ) := by
    have h1 : 1 ≤ freqs.sum := le_trans hc1 hcN
    exact_mod_cast Nat.lt_of_lt_of_le Nat.zero_lt_one h1
  have hp0 : 0 ≤ (c : ℝ) / ((freqs.sum : ℕ) : ℝ) := by positivity
  have hp1 : (c : ℝ) / ((freqs.sum : ℕ) : ℝ) ≤ 1 := by
    rw [div_le_one hN]
    exact_mod_cast hcN
  have := neg_p_log_p_nonneg hp0 hp1
  linarith

lemma charFreqs_ge_one (s : String) : ∀ c ∈ charFreqs s, 1 ≤ c := by
  intro c hc
  rcases List.mem_map.1 hc with ⟨ch, hch, rfl⟩
  have hm : ch ∈ s.toList := List.mem_dedup.1 hch
  exact List.count_pos_iff.2 hm

lemma wordFreqs_ge_one (ws : List String) : ∀ c ∈ wordFreqs ws, 1 ≤ c := by
  intro c hc
  rcases List.mem_map.1 hc with ⟨w, hw, rfl⟩
  have hm : w ∈ ws := List.mem_dedup.1 hw
  exact List.count_pos_iff.2 hm

lemma npVar_nonneg (l : List ℕ) : 0 ≤ npVar l := by
  unfold npVar
  apply div_nonneg
  · apply List.sum_nonneg
    intro x hx
    rcases List.mem_map.1 hx with ⟨a, _, rfl⟩
    positivity
  · positivity

lemma ite_npVar_nonneg (s : String) :
    0 ≤ (if sentLens s = [] then (0:ℚ) else npVar (sentLens s)) := by
  split
  · exact le_refl 0
  · exact npVar_nonneg _

lemma thermo_coherence_nonneg (s : String) :
    0 ≤ PersonalityThermodynamics.measure_coherence s := by
  unfold PersonalityThermodynamics.measure_coherence
  split
  · exact le_refl 0
  · have hvar := ite_npVar_nonneg s
    have h1 : (0:ℚ) ≤ ((pyWords s).dedup.length : ℚ) / ((pyWords s).length : ℚ) := by positivity
    have h2 : (0:ℚ) ≤ 1 / (1 + (if sentLens s = [] then 0 else npVar (sentLens s))) := by positivity
    nlinarith

lemma thermo_coherence_le_one (s : String) :
    PersonalityThermodynamics.measure_coherence s ≤ 1 := by
  unfold PersonalityThermodynamics.measure_coherence
  split
  · norm_num
  · rename_i hw
    have hlen : 0 < (pyWords s).length := List.length_pos.2 hw
    have hu1 : ((pyWords s).dedup.length : ℚ) / ((pyWords s).length : ℚ) ≤ 1 := by
      rw [div_le_one (by exact_mod_cast hlen)]
      exact_mod_cast List.Sublist.length_le (List.dedup_sublist (pyWords s))
    have hvar := ite_npVar_nonneg s
    have hs1 : 1 / (1 + (if sentLens s = [] then 0 else npVar (sentLens s))) ≤ 1 := by
      rw [div_le_one (by linarith)]
      linarith
    have hu0 : (0:ℚ) ≤ ((pyWords s).dedup.length : ℚ) / ((pyWords s).length : ℚ) := by positivity
    have hs0 : (0:ℚ) ≤ 1 / (1 + (if sentLens s = [] then 0 else npVar (sentLens s))) := by
      positivity
    nlinarith

lemma thermo_entropy_nonneg (s : String) :
    0 ≤ PersonalityThermodynamics.calculate_entropy s := by
  unfold PersonalityThermodynamics.calculate_entropy
  split
  · exact le_refl 0
  · have hchar : 0 ≤ shannonH (charFreqs s) := shannonH_nonneg _ (charFreqs_ge_one s)
    have hword : 0 ≤ (if pyWords s = [] then (0:ℝ) else shannonH (wordFreqs (pyWords s))) := by
      split
      · exact le_refl 0
      · exact shannonH_nonneg _ (wordFreqs_ge_one _)
    nlinarith

/-- C8: for every text the thermodynamics coherence score lies in [0,1]
and the entropy score is nonnegative (in particular for non-empty
text), and both are exactly 0 on the empty text. -/
theorem c8_metric_bounds (s : String) :
    (0 ≤ PersonalityThermodynamics.measure_coherence s
      ∧ PersonalityThermodynamics.measure_coherence s ≤ 1
      ∧ 0 ≤ PersonalityThermodynamics.calculate_entropy s)
    ∧ PersonalityThermodynamics.measure_coherence "" = 0
    ∧ PersonalityThermodynamics.calculate_entropy "" = 0 := by
  refine ⟨⟨thermo_coherence_nonneg s, thermo_coherence_le_one s, thermo_entropy_nonneg s⟩, ?_, ?_⟩
  · decide
  · unfold PersonalityThermodynamics.calculate_entropy
    simp

/-! ### ThermodynamicScorer (thermodynamics.py) -/

namespace PersonalityThermodynamics

/-- `_calculate_order_parameter` (thermodynamics.py lines 100-109):
mean-field order below `T_c`, exponential decay above; the coherence
argument is unused in the source. -/
noncomputable def calculate_order_parameter (coherence : ℚ) (temperature : ℝ) : ℝ :=
  if temperature < T_c then Real.sqrt (1 - temperature / T_c)
  else Real.exp (-(temperature / T_c))

/-- `_calculate_enthalpy` (thermodynamics.py lines 111-115):
`-np.log(coherence + epsilon) * (1 + alpha * temperature)`. -/
noncomputable def calculate_enthalpy (coherence : ℚ) (temperature : ℝ) : PyFloat :=
  ((PyFloat.pyLog ((coherence : ℝ) + epsilon)).neg).mul (PyFloat.fin (1 + alpha * temperature))

/-- `_calculate_entropy_term` (thermodynamics.py lines 117-127). -/
noncomputable def calculate_entropy_term (entropyV temperature : ℝ) : ℝ :=
  (1 / (1 + Real.exp (-(beta * temperature))))
    * (1 / (1 + |1 - temperature / T_c|)) * entropyV

/-- `_calculate_free_energy` (thermodynamics.py lines 129-141). -/
noncomputable def calculate_free_energy (enthalpyV : PyFloat)
    (entropy_term order_param temperature : ℝ) : PyFloat :=
  (enthalpyV.sub (PyFloat.fin (temperature * entropy_term))).add
    (PyFloat.fin (order_param * |temperature - T_c|))

/-- `_add_noise` (thermodynamics.py lines 143-156): the two zero-mean
gaussian draws are modelled by oracle standard draws `g1`, `g2`
multiplied by the scale factors of the source. -/
noncomputable def add_noise (energy : PyFloat) (temperature g1 g2 : ℝ) : PyFloat :=
  energy.add (PyFloat.fin (noise_scale * (1 - Real.exp (-temperature)) * g1
    + noise_scale * (1 - Real.exp (-temperature))
      * (1 + 1 / (1 + |temperature - T_c|)) * (1/10) * g2))

/-- The dict returned by `PersonalityThermodynamics.calculate_energy`. -/
structure ThermoResult where
  energy : PyFloat
  entropy : ℝ
  enthalpy : PyFloat
  coherence : ℚ
  order_parameter : ℝ
  delta_energy : PyFloat
  phase : String
  temperature : ℝ

/-- `PersonalityThermodynamics.calculate_energy` (thermodynamics.py
lines 27-65). -/
noncomputable def calculate_energy (response : String) (temperature : ℝ)
    (previous_energy : Option PyFloat) (g1 g2 : ℝ) : ThermoResult :=
  let coherence := measure_coherence response
  let entropyV := calculate_entropy response
  let order_param := calculate_order_parameter coherence temperature
  let enthalpyV := calculate_enthalpy coherence temperature
  let entropy_term := calculate_entropy_term entropyV temperature
  let energyV := calculate_free_energy enthalpyV entropy_term order_param temperature
  let total_energy := add_noise energyV temperature g1 g2
  { energy := total_energy
    entropy := entropyV
    enthalpy := enthalpyV
    coherence := coherence
    order_parameter := order_param
    delta_energy := match previous_energy with
      | some p => total_energy.sub p
      | none => PyFloat.fin 0
    phase := determine_phase (coherence : ℝ) temperature
    temperature := temperature }

end PersonalityThermodynamics

/-! ### EnergyCalculator scorer (energy_calculator.py) -/

namespace EnergyCalculator

/-- The dict returned by `EnergyCalculator.calculate_energy`. -/
structure ECResult where
  energy : PyFloat
  entropy : ℝ
  enthalpy : PyFloat
  coherence : ℚ
  delta_energy : PyFloat

/-- `EnergyCalculator.calculate_energy` (energy_calculator.py lines
10-50): enthalpy is `-np.log(coherence)` when coherence is positive and
`float('inf')` otherwise (no epsilon floor); the gaussian noise draw
`np.random.normal(0, 0.1 * temperature)` is the oracle `g`. -/
noncomputable def calculate_energy (response : String) (temperature : ℝ)
    (previous_energy : Option PyFloat) (g : ℝ) : ECResult :=
  let coherence := measure_coherence response
  let entropyV := calculate_entropy response
  let enthalpyV : PyFloat :=
    if 0 < coherence then PyFloat.fin (-Real.log (coherence : ℝ)) else PyFloat.pinf
  let energyV := enthalpyV.sub (PyFloat.fin (temperature * entropyV))
  let total_energy := energyV.add (PyFloat.fin g)
  { energy := total_energy
    entropy := entropyV
    enthalpy := enthalpyV
    coherence := coherence
    delta_energy := match previous_energy with
      | some p => total_energy.sub p
      | none => PyFloat.fin 0 }

end EnergyCalculator

/-! ### C3: numeric guards in scoring -/

lemma thermo_enthalpy_eq_fin (c : ℚ) (T : ℝ) (hc : 0 ≤ c) :
    ∃ x, PersonalityThermodynamics.calculate_enthalpy c T = PyFloat.fin x := by
  unfold PersonalityThermodynamics.calculate_enthalpy
  unfold PyFloat.pyLog
  have hpos : (0:ℝ) < (c : ℝ) + PersonalityThermodynamics.epsilon := by
    have : (0:ℝ) ≤ (c : ℝ) := by exact_mod_cast hc
    unfold PersonalityThermodynamics.epsilon
    linarith
  rw [if_pos hpos]
  exact ⟨_, rfl⟩

/-- C3 as amended: with the epsilon floor, the thermodynamics scorer
returns finite enthalpy and total energy for every response text and
every temperature; the EnergyCalculator scorer (which has no floor)
returns finite enthalpy and energy exactly when the coherence of the
text is positive, and `float('inf')` otherwise. -/
theorem c3_scoring_finiteness (response : String) (T : ℝ) (prev : Option PyFloat)
    (g1 g2 g : ℝ) (hT : 0 < T) :
    (PersonalityThermodynamics.calculate_energy response T prev g1 g2).enthalpy.isFinite = true
    ∧ (PersonalityThermodynamics.calculate_energy response T prev g1 g2).energy.isFinite = true
    ∧ ((EnergyCalculator.calculate_energy response T prev g).enthalpy.isFinite = true
        ↔ 0 < EnergyCalculator.measure_coherence response)
    ∧ ((EnergyCalculator.calculate_energy response T prev g).energy.isFinite = true
        ↔ 0 < EnergyCalculator.measure_coherence response) := by
  obtain ⟨x, hx⟩ := thermo_enthalpy_eq_fin (PersonalityThermodynamics.measure_coherence response) T
    (thermo_coherence_nonneg response)
  refine ⟨?_, ?_, ?_, ?_⟩
  · show (PersonalityThermodynamics.calculate_enthalpy
      (PersonalityThermodynamics.measure_coherence response) T).isFinite = true
    rw [hx]; rfl
  · show (PersonalityThermodynamics.add_noise (PersonalityThermodynamics.calculate_free_energy
      (PersonalityThermodynamics.calculate_enthalpy
        (PersonalityThermodynamics.measure_coherence response) T) _ _ T) T g1 g2).isFinite = true
    rw [hx]
    rfl
  · show (if 0 < EnergyCalculator.measure_coherence response
        then PyFloat.fin (-Real.log ((EnergyCalculator.measure_coherence response : ℚ) : ℝ))
        else PyFloat.pinf).isFinite = true
      ↔ 0 < EnergyCalculator.measure_coherence response
    split
    · rename_i h; simpa using h
    · rename_i h; simpa using h
  · show ((((if 0 < EnergyCalculator.measure_coherence response
        then PyFloat.fin (-Real.log ((EnergyCalculator.measure_coherence response : ℚ) : ℝ))
        else PyFloat.pinf).sub
          (PyFloat.fin (T * EnergyCalculator.calculate_entropy response))).add
            (PyFloat.fin g)).isFinite = true)
      ↔ 0 < EnergyCalculator.measure_coherence response
    split
    · rename_i h
      constructor
      · intro _; exact h
      · intro _; rfl
    · rename_i h
      constructor
      · intro hbad; simp at hbad
      · intro hc; exact absurd hc h

/-- C3 witness: the theorem applied at response "a", temperature 1. -/
theorem c3_scoring_finiteness_witness :
    (PersonalityThermodynamics.calculate_energy "a" 1 none 0 0).enthalpy.isFinite = true
    ∧ (PersonalityThermodynamics.calculate_energy "a" 1 none 0 0).energy.isFinite = true
    ∧ ((EnergyCalculator.calculate_energy "a" 1 none 0).enthalpy.isFinite = true
        ↔ 0 < EnergyCalculator.measure_coherence "a")
    ∧ ((EnergyCalculator.calculate_energy "a" 1 none 0).energy.isFinite = true
        ↔ 0 < EnergyCalculator.measure_coherence "a") :=
  c3_scoring_finiteness "a" 1 none 0 0 0 (by norm_num)

/-- C3 counterexample: on the empty text the EnergyCalculator scorer
returns infinite enthalpy and energy, refuting the claim that the
scoring call always returns finite values. -/
theorem c3_counterexample :
    (EnergyCalculator.calculate_energy "" 1 none 0).enthalpy = PyFloat.pinf
    ∧ (EnergyCalculator.calculate_energy "" 1 none 0).energy = PyFloat.pinf := by
  have h : EnergyCalculator.measure_coherence "" = 0 := by decide
  constructor
  · show (if 0 < EnergyCalculator.measure_coherence ""
        then PyFloat.fin (-Real.log ((EnergyCalculator.measure_coherence "" : ℚ) : ℝ))
        else PyFloat.pinf) = PyFloat.pinf
    rw [h]
    norm_num
  · show ((if 0 < EnergyCalculator.measure_coherence ""
        then PyFloat.fin (-Real.log ((EnergyCalculator.measure_coherence "" : ℚ) : ℝ))
        else PyFloat.pinf).sub
          (PyFloat.fin (1 * EnergyCalculator.calculate_entropy ""))).add
            (PyFloat.fin 0) = PyFloat.pinf
    rw [h]
    norm_num

/-! ### Monte Carlo acceptance (monte_carlo.py) -/

namespace MonteCarloAnalyzer

/-- Numeric attributes bound on a `MonteCarloAnalyzer` instance.
`__init__` (monte_carlo.py lines 30-34) binds only the object
attributes `thermodynamics`, `llm`, `energy_calculator` and
`personality_dims`; neither the instance nor the class defines a float
attribute, so this list is empty.  In particular `"k_B"` is absent:
the constant `k_B = 1.0` lives on `EnergyCalculator`, a different
object, and is never copied onto the analyzer. -/
def numeric_attrs : List (String × ℝ) := []

/-- Python attribute lookup restricted to float-valued attributes:
a missing name raises `AttributeError`. -/
def getattr_num (attrs : List (String × ℝ)) (name : String) : Except String ℝ :=
  match attrs.lookup name with
  | some v => Except.ok v
  | none => Except.error ("AttributeError: " ++ name)

/-- `MonteCarloAnalyzer._accept_state(delta_E, temperature)`
(monte_carlo.py lines 61-65), with the uniform draw
`np.random.random()` passed as the oracle `u`: accept unconditionally
when `delta_E <= 0`; otherwise Python evaluates
`u < np.exp(-delta_E / (self.k_B * temperature))`, which first reads
`self.k_B`. -/
noncomputable def accept_state (delta_E : PyFloat) (temperature u : ℝ) : Except String Bool :=
  if PyFloat.le delta_E (PyFloat.fin 0) then Except.ok true
  else
    match getattr_num numeric_attrs "k_B" with
    | Except.error e => Except.error e
    | Except.ok kB =>
        Except.ok (if PyFloat.lt (PyFloat.fin u)
          (PyFloat.pyExp ((delta_E.neg).div (PyFloat.fin (kB * temperature))))
          then true else false)

end MonteCarloAnalyzer

/-- C1: the Metropolis decision accepts unconditionally when the energy
difference is at most 0, but for every positive energy difference the
code raises AttributeError instead of accepting with probability
`exp(-deltaE/(kB*T))`, because `self.k_B` is never bound on the
analyzer; shown at the failing input `delta_E = 1, T = 1, u = 1/2`. -/
theorem c1_accept_state (delta_E : PyFloat) (T u : ℝ)
    (h : PyFloat.le delta_E (PyFloat.fin 0)) :
    MonteCarloAnalyzer.accept_state delta_E T u = Except.ok true
    ∧ MonteCarloAnalyzer.accept_state (PyFloat.fin 1) 1 (1/2)
      = Except.error "AttributeError: k_B" := by
  constructor
  · unfold MonteCarloAnalyzer.accept_state
    rw [if_pos h]
  · unfold MonteCarloAnalyzer.accept_state
    rw [if_neg (by simp)]
    rfl

/-- C1 witness: the theorem applied at `delta_E = -1`. -/
theorem c1_accept_state_witness :
    MonteCarloAnalyzer.accept_state (PyFloat.fin (-1)) 1 0 = Except.ok true
    ∧ MonteCarloAnalyzer.accept_state (PyFloat.fin 1) 1 (1/2)
      = Except.error "AttributeError: k_B" :=
  c1_accept_state (PyFloat.fin (-1)) 1 0 (by norm_num [PyFloat.le])

/-! ### Genetics (personality_genetics.py) -/

/-- The `Gene` dataclass (personality_genetics.py lines 7-14). -/
structure Gene where
  sequence : String
  position : ℤ
  expression_temp : ℝ
  stability : ℝ
  phenotype : Option String

/-- The `Chromosome` dataclass (personality_genetics.py lines 16-22). -/
structure Chromosome where
  genes : List Gene
  trait_name : String
  activation_threshold : ℝ
  coherence_requirement : ℝ

namespace PersonalityGenome

/-- `PersonalityGenome._mutation_probability(gene, temp)`
(personality_genetics.py lines 61-65).  The genome's `self.thermo` is a
default-constructed `PersonalityThermodynamics`, so `T_c = 1`. -/
noncomputable def mutation_probability (gene : Gene) (temp : ℝ) : ℝ :=
  min ((1 - gene.stability)
    * Real.exp ((temp - gene.expression_temp) / PersonalityThermodynamics.T_c)) 1

/-- The spec formula `min((1-stability) * exp((T - expressionTemperature)/Tc), 1)`,
stated from the spec wording for the refinement comparison in C6. -/
noncomputable def mutationProbabilitySpec (stability expressionTemperature T : ℝ) : ℝ :=
  min ((1 - stability)
    * Real.exp ((T - expressionTemperature) / PersonalityThermodynamics.T_c)) 1

end PersonalityGenome

/-- C6: for every gene with stability in [0,1] the mutation probability
equals the spec formula `min((1-stability)*exp((T-expressionTemp)/Tc), 1)`
and is non-decreasing in the temperature. -/
theorem c6_mutation_probability (gene : Gene) (T1 T2 : ℝ)
    (h0 : 0 ≤ gene.stability) (h1 : gene.stability ≤ 1) (hT : T1 ≤ T2) :
    PersonalityGenome.mutation_probability gene T1
      = PersonalityGenome.mutationProbabilitySpec gene.stability gene.expression_temp T1
    ∧ PersonalityGenome.mutation_probability gene T1
      ≤ PersonalityGenome.mutation_probability gene T2 := by
  constructor
  · rfl
  · unfold PersonalityGenome.mutation_probability
    apply min_le_min _ le_rfl
    apply mul_le_mul_of_nonneg_left _ (by linarith)
    apply Real.exp_le_exp.2
    unfold PersonalityThermodynamics.T_c
    simp only [div_one]
    linarith

/-- C6 witness: the theorem applied to a gene with stability 1/2,
expression temperature 0, at temperatures 0 and 1. -/
theorem c6_mutation_probability_witness :
    PersonalityGenome.mutation_probability ⟨"", 0, 0, 1/2, none⟩ 0
      = PersonalityGenome.mutationProbabilitySpec (1/2) 0 0
    ∧ PersonalityGenome.mutation_probability ⟨"", 0, 0, 1/2, none⟩ 0
      ≤ PersonalityGenome.mutation_probability ⟨"", 0, 0, 1/2, none⟩ 1 :=
  c6_mutation_probability ⟨"", 0, 0, 1/2, none⟩ 0 1 (by norm_num) (by norm_num) (by norm_num)

/-! ### LLM client and chain states (llm_client.py, monte_carlo.py) -/

/-- The personality dict passed around by the chain. -/
def Personality := List (String × String)

/-- The `MCState` dataclass (monte_carlo.py lines 9-27). -/
structure MCState where
  temperature : ℝ
  energy : PyFloat
  entropy : ℝ
  enthalpy : PyFloat
  coherence : ℚ
  personality : Personality
  phase : String
  response : String

namespace LLMClient

/-- `LLMClient._generate` (llm_client.py lines 32-51): the try block
catches every exception of the backend call and returns the empty
string; a successful call returns its text.  The backend outcome is the
parameter. -/
def generate_result (backend : Except String String) : String :=
  match backend with
  | Except.ok s => s
  | Except.error _ => ""

end LLMClient

namespace MonteCarloAnalyzer

/-- `MonteCarloAnalyzer._initialize_state` (monte_carlo.py lines 36-54):
builds the literal zero state at temperature 0.1 (the result of its
initial `calculate_energy` call is discarded by the source). -/
noncomputable def init_state (personality : Personality) : MCState :=
  { temperature := 1/10
    energy := PyFloat.fin 0
    entropy := 0
    enthalpy := PyFloat.fin 0
    coherence := 0
    personality := personality
    phase := "coherent"
    response := "" }

/-- `MonteCarloAnalyzer._create_state_from_response` (monte_carlo.py
lines 67-89): scores the response with the `EnergyCalculator` and
builds the new state; the phase comes from `_determine_phase`. -/
noncomputable def create_state_from_response (response : String) (personality : Personality)
    (temperature : ℝ) (previous_state : Option MCState) (g : ℝ) : MCState :=
  let props := EnergyCalculator.calculate_energy response temperature
    (previous_state.map (fun s => s.energy)) g
  { temperature := temperature
    energy := props.energy
    entropy := props.entropy
    enthalpy := props.enthalpy
    coherence := props.coherence
    personality := personality
    phase := determine_phase temperature (props.coherence : ℝ)
    response := response }

end MonteCarloAnalyzer

lemma mc_determine_phase_ne_error (T c : ℝ) :
    MonteCarloAnalyzer.determine_phase T c ≠ "error" := by
  unfold MonteCarloAnalyzer.determine_phase
  split
  · decide
  · split
    · decide
    · decide

lemma ec_entropy_empty : EnergyCalculator.calculate_entropy "" = 0 := by
  unfold EnergyCalculator.calculate_entropy
  rw [if_pos (by decide : pyWords "" = [])]

/-- C2 as amended: a persistently failing Generator call inside
`LLMClient._generate` yields the response ""; the state the chain then
builds from it has coherence 0 and entropy 0, but its enthalpy and
energy are float infinity (not zeros), and its phase is determined by
the temperature alone, one of the three ordinary labels and never
"error". -/
theorem c2_error_state (e : String) (personality : Personality) (T : ℝ)
    (prev : Option MCState) (g : ℝ) :
    LLMClient.generate_result (Except.error e) = ""
    ∧ (MonteCarloAnalyzer.create_state_from_response "" personality T prev g).coherence = 0
    ∧ (MonteCarloAnalyzer.create_state_from_response "" personality T prev g).entropy = 0
    ∧ (MonteCarloAnalyzer.create_state_from_response "" personality T prev g).enthalpy
        = PyFloat.pinf
    ∧ (MonteCarloAnalyzer.create_state_from_response "" personality T prev g).energy
        = PyFloat.pinf
    ∧ (MonteCarloAnalyzer.create_state_from_response "" personality T prev g).phase
        = MonteCarloAnalyzer.determine_phase T 0
    ∧ (MonteCarloAnalyzer.create_state_from_response "" personality T prev g).phase
        ≠ "error" := by
  have hc : EnergyCalculator.measure_coherence "" = 0 := by decide
  refine ⟨rfl, ?_, ?_, ?_, ?_, ?_, ?_⟩
  · show EnergyCalculator.measure_coherence "" = 0
    exact hc
  · show EnergyCalculator.calculate_entropy "" = 0
    exact ec_entropy_empty
  · show (if 0 < EnergyCalculator.measure_coherence ""
        then PyFloat.fin (-Real.log ((EnergyCalculator.measure_coherence "" : ℚ) : ℝ))
        else PyFloat.pinf) = PyFloat.pinf
    rw [hc]
    norm_num
  · show ((if 0 < EnergyCalculator.measure_coherence ""
        then PyFloat.fin (-Real.log ((EnergyCalculator.measure_coherence "" : ℚ) : ℝ))
        else PyFloat.pinf).sub
          (PyFloat.fin (T * EnergyCalculator.calculate_entropy ""))).add (PyFloat.fin g)
        = PyFloat.pinf
    rw [hc]
    norm_num
  · show MonteCarloAnalyzer.determine_phase T ((EnergyCalculator.measure_coherence "" : ℚ) : ℝ)
        = MonteCarloAnalyzer.determine_phase T 0
    rw [hc]
    norm_num
  · show MonteCarloAnalyzer.determine_phase T ((EnergyCalculator.measure_coherence "" : ℚ) : ℝ)
        ≠ "error"
    exact mc_determine_phase_ne_error T _

/-- C2 counterexample: the state built from a failed (empty) generation
at temperature 0.5 is tagged "coherent", not "error", and its enthalpy
is float infinity, not a well-defined zero. -/
theorem c2_counterexample :
    (MonteCarloAnalyzer.create_state_from_response "" []
        (1/2) (some (MonteCarloAnalyzer.init_state [])) 0).phase = "coherent"
    ∧ (MonteCarloAnalyzer.create_state_from_response "" []
        (1/2) (some (MonteCarloAnalyzer.init_state [])) 0).enthalpy = PyFloat.pinf := by
  have hc : EnergyCalculator.measure_coherence "" = 0 := by decide
  constructor
  · show MonteCarloAnalyzer.determine_phase (1/2)
        ((EnergyCalculator.measure_coherence "" : ℚ) : ℝ) = "coherent"
    unfold MonteCarloAnalyzer.determine_phase
    rw [if_pos]
    unfold PersonalityThermodynamics.coherent_to_semi
    norm_num
  · show (if 0 < EnergyCalculator.measure_coherence ""
        then PyFloat.fin (-Real.log ((EnergyCalculator.measure_coherence "" : ℚ) : ℝ))
        else PyFloat.pinf) = PyFloat.pinf
    rw [hc]
    norm_num

/-! ### Crossover (personality_evolution.py) -/

/-- `PersonalityGenome` (personality_genetics.py lines 24-44): the
chromosomes dict, keyed by trait name in insertion order.  The other
instance attributes (neutral networks, stability cache, the `thermo`
helper) play no part in the claims about crossover. -/
structure PersonalityGenome where
  chromosomes : List (String × Chromosome)

/-- Modelled from the spec: `parent1.copy()` is called by `_crossover`
(personality_evolution.py line 103) and by `mutate`, but no `copy`
method of `PersonalityGenome` appears under src.  The spec (sections 3
and 4.4) states that mutation and crossover operate on a deep copy of
the genome; in a value-semantics embedding a deep copy is the value
itself. -/
def PersonalityGenome.copy (g : PersonalityGenome) : PersonalityGenome := g

/-- Modelled from the spec: `parent2.chromosomes[trait].copy()` is
called by `_crossover` (personality_evolution.py line 110), but no
`copy` method of `Chromosome` appears under src; the spec requires a
deep copy, which in a value-semantics embedding is the value itself. -/
def Chromosome.copy (c : Chromosome) : Chromosome := c

/-- Python dict lookup on the insertion-ordered chromosome list. -/
def lookupChrom : List (String × Chromosome) → String → Option Chromosome
  | [], _ => none
  | (k, v) :: rest, t => if k = t then some v else lookupChrom rest t

/-- Python dict item assignment for a key already present: replace the
value, keep the insertion order. -/
def setChrom (l : List (String × Chromosome)) (t : String) (v : Chromosome) :
    List (String × Chromosome) :=
  l.map (fun p => if p.1 = t then (t, v) else p)

/-- The loop of `PersonalityEvolution._crossover` (personality_evolution.py
lines 105-110): for each trait of parent2 present in the child, replace
the child's chromosome by parent2's copy when the coin (the
`np.random.random() < 0.5` draw for that trait) lands true. -/
def crossover_go (coin : String → Bool) :
    List (String × Chromosome) → List (String × Chromosome) → List (String × Chromosome)
  | child, [] => child
  | child, (t, c2) :: rest =>
      crossover_go coin
        (if (lookupChrom child t).isSome && coin t then setChrom child t c2.copy else child)
        rest

/-- `PersonalityEvolution._crossover(parent1, parent2)`
(personality_evolution.py lines 98-112). -/
def PersonalityEvolution.crossover (coin : String → Bool)
    (parent1 parent2 : PersonalityGenome) : PersonalityGenome :=
  ⟨crossover_go coin parent1.copy.chromosomes parent2.chromosomes⟩

lemma option_map_copy (o : Option Chromosome) : o.map Chromosome.copy = o := by
  cases o <;> rfl

lemma setChrom_keys (l : List (String × Chromosome)) (t : String) (v : Chromosome) :
    (setChrom l t v).map Prod.fst = l.map Prod.fst := by
  induction l with
  | nil => rfl
  | cons p rest ih =>
      obtain ⟨k, w⟩ := p
      simp only [setChrom, List.map_cons] at ih ⊢
      by_cases hk : k = t
      · rw [if_pos hk]
        simp only [ih]
        rw [hk]
      · rw [if_neg hk]
        simp only [ih]

lemma lookupChrom_setChrom_self (l : List (String × Chromosome)) (t : String) (v : Chromosome) :
    lookupChrom (setChrom l t v) t = (lookupChrom l t).map (fun _ => v) := by
  induction l with
  | nil => rfl
  | cons p rest ih =>
      obtain ⟨k, w⟩ := p
      simp only [setChrom, List.map_cons] at ih ⊢
      by_cases hk : k = t
      · rw [if_pos hk]
        simp [lookupChrom, hk]
      · rw [if_neg hk]
        simp only [lookupChrom, if_neg hk, ih]

lemma lookupChrom_setChrom_other (l : List (String × Chromosome)) (t t1 : String)
    (v : Chromosome) (h : t1 ≠ t) :
    lookupChrom (setChrom l t v) t1 = lookupChrom l t1 := by
  induction l with
  | nil => rfl
  | cons p rest ih =>
      obtain ⟨k, w⟩ := p
      simp only [setChrom, List.map_cons] at ih ⊢
      by_cases hk : k = t
      · rw [if_pos hk]
        have hkt1 : ¬ t = t1 := fun hh => h hh.symm
        have hkt1b : ¬ k = t1 := by rw [hk]; exact hkt1
        simp only [lookupChrom, if_neg hkt1, if_neg hkt1b, ih]
      · rw [if_neg hk]
        simp only [lookupChrom, ih]

lemma lookupChrom_none_of_not_mem (l : List (String × Chromosome)) (t : String)
    (h : t ∉ l.map Prod.fst) : lookupChrom l t = none := by
  induction l with
  | nil => rfl
  | cons p rest ih =>
      obtain ⟨k, w⟩ := p
      simp only [List.map_cons, List.mem_cons, not_or] at h
      have hk : ¬ k = t := fun hh => h.1 hh.symm
      simp only [lookupChrom, if_neg hk]
      exact ih h.2

lemma crossover_go_keys (coin : String → Bool) (l2 : List (String × Chromosome)) :
    ∀ child, (crossover_go coin child l2).map Prod.fst = child.map Prod.fst := by
  induction l2 with
  | nil => intro child; rfl
  | cons p rest ih =>
      intro child
      obtain ⟨t, c2⟩ := p
      show (crossover_go coin
        (if (lookupChrom child t).isSome && coin t then setChrom child t c2.copy else child)
        rest).map Prod.fst = child.map Prod.fst
      rw [ih]
      split
      · exact setChrom_keys child t c2.copy
      · rfl

lemma crossover_go_lookup (coin : String → Bool) (l2 : List (String × Chromosome))
    (h2 : (l2.map Prod.fst).Nodup) :
    ∀ (child : List (String × Chromosome)) (t : String),
      lookupChrom (crossover_go coin child l2) t =
        if ((lookupChrom l2 t).isSome && (lookupChrom child t).isSome && coin t) = true
        then (lookupChrom l2 t).map Chromosome.copy
        else lookupChrom child t := by
  induction l2 with
  | nil =>
      intro child t
      simp [crossover_go, lookupChrom]
  | cons p rest ih =>
      obtain ⟨s, c2⟩ := p
      simp only [List.map_cons, List.nodup_cons] at h2
      obtain ⟨hs, hrest⟩ := h2
      intro child t
      show lookupChrom (crossover_go coin
        (if (lookupChrom child s).isSome && coin s then setChrom child s c2.copy else child)
        rest) t = _
      rw [ih hrest]
      by_cases hts : t = s
      · subst hts
        have hrs : lookupChrom rest t = none := lookupChrom_none_of_not_mem rest t hs
        rw [hrs]
        simp only [Option.isSome_none, Bool.false_and, Bool.false_eq_true, if_false]
        have hl2t : lookupChrom ((t, c2) :: rest) t = some c2 := by
          simp [lookupChrom]
        rw [hl2t]
        simp only [Option.isSome_some, Bool.true_and]
        by_cases hcs : ((lookupChrom child t).isSome && coin t) = true
        · rw [if_pos hcs, if_pos hcs, lookupChrom_setChrom_self]
          have hcs2 := hcs
          simp only [Bool.and_eq_true] at hcs2
          rcases Option.isSome_iff_exists.1 hcs2.1 with ⟨w, hw⟩
          rw [hw]
          rfl
        · rw [if_neg hcs, if_neg hcs]
      · have hl2 : lookupChrom ((s, c2) :: rest) t = lookupChrom rest t := by
          have hst : ¬ s = t := fun hh => hts hh.symm
          simp only [lookupChrom, if_neg hst]
        have hchild : lookupChrom
            (if (lookupChrom child s).isSome && coin s then setChrom child s c2.copy else child) t
            = lookupChrom child t := by
          split
          · exact lookupChrom_setChrom_other child s t c2.copy hts
          · rfl
        rw [hchild, hl2]

lemma crossover_go_coin_false (coin : String → Bool) (hcoin : ∀ t, coin t = false)
    (l2 : List (String × Chromosome)) :
    ∀ child, crossover_go coin child l2 = child := by
  induction l2 with
  | nil => intro child; rfl
  | cons p rest ih =>
      intro child
      obtain ⟨s, c2⟩ := p
      show crossover_go coin
        (if (lookupChrom child s).isSome && coin s then setChrom child s c2.copy else child)
        rest = child
      rw [hcoin s]
      simp only [Bool.and_false, Bool.false_eq_true, if_false]
      exact ih child

/-- The property of C7: the child of `_crossover` has the same trait
set as parent1, every chromosome of the child equals the corresponding
chromosome of one of the parents (wholesale, never a blend), a trait
present in both parents comes from parent2 exactly when that trait's
coin landed true, and an all-false coin reproduces parent1. -/
def CrossoverClaim (coin : String → Bool) (p1 p2 : PersonalityGenome) : Prop :=
  ((PersonalityEvolution.crossover coin p1 p2).chromosomes.map Prod.fst
      = p1.chromosomes.map Prod.fst)
  ∧ (∀ t, lookupChrom (PersonalityEvolution.crossover coin p1 p2).chromosomes t
        = lookupChrom p1.chromosomes t
      ∨ ((lookupChrom p2.chromosomes t).isSome = true
        ∧ lookupChrom (PersonalityEvolution.crossover coin p1 p2).chromosomes t
          = lookupChrom p2.chromosomes t))
  ∧ (∀ t c1 c2, lookupChrom p1.chromosomes t = some c1
      → lookupChrom p2.chromosomes t = some c2
      → lookupChrom (PersonalityEvolution.crossover coin p1 p2).chromosomes t
          = some (if coin t then c2 else c1))
  ∧ ((∀ t, coin t = false) → PersonalityEvolution.crossover coin p1 p2 = p1)

/-- C7: crossover inherits each trait axis wholesale; proved for every
parent pair whose parent2 chromosome dict has distinct keys (a Python
dict always does). -/
theorem c7_crossover_wholesale (coin : String → Bool) (p1 p2 : PersonalityGenome)
    (h2 : (p2.chromosomes.map Prod.fst).Nodup) : CrossoverClaim coin p1 p2 := by
  have hkey := crossover_go_keys coin p2.chromosomes p1.chromosomes
  have hchar := crossover_go_lookup coin p2.chromosomes h2 p1.chromosomes
  refine ⟨hkey, ?_, ?_, ?_⟩
  · intro t
    rw [show lookupChrom (PersonalityEvolution.crossover coin p1 p2).chromosomes t
        = lookupChrom (crossover_go coin p1.chromosomes p2.chromosomes) t from rfl]
    rw [hchar t]
    split
    · rename_i hcond
      right
      simp only [Bool.and_eq_true] at hcond
      exact ⟨hcond.1.1, option_map_copy _⟩
    · left; rfl
  · intro t c1 c2 h1 hp2
    rw [show lookupChrom (PersonalityEvolution.crossover coin p1 p2).chromosomes t
        = lookupChrom (crossover_go coin p1.chromosomes p2.chromosomes) t from rfl]
    rw [hchar t, h1, hp2]
    simp only [Option.isSome_some, Bool.true_and]
    by_cases hc : coin t = true
    · rw [if_pos hc, if_pos hc]
      rfl
    · rw [if_neg hc, if_neg (by simpa using hc)]
  · intro hcoin
    show (⟨crossover_go coin p1.copy.chromosomes p2.chromosomes⟩ : PersonalityGenome) = p1
    rw [crossover_go_coin_false coin hcoin p2.chromosomes]
    rfl

/-- C7 witness: the theorem applied to two one-chromosome parents with
an all-true coin. -/
theorem c7_crossover_wholesale_witness :
    CrossoverClaim (fun _ => true)
      ⟨[("identity", ⟨[], "identity", 0, 0⟩)]⟩
      ⟨[("identity", ⟨[], "identity", 1, 1⟩)]⟩ :=
  c7_crossover_wholesale (fun _ => true)
    ⟨[("identity", ⟨[], "identity", 0, 0⟩)]⟩
    ⟨[("identity", ⟨[], "identity", 1, 1⟩)]⟩ (by simp)

/-! ### Evolution engine (personality_evolution.py) -/

/-- One history record appended by `evolve` per generation
(personality_evolution.py lines 45-50). -/
structure HistEntry where
  generation : ℕ
  max_fitness : ℚ
  avg_fitness : ℚ
  population_diversity : ℚ

/-- Python `max(list)` on the fitness scores; the loop only calls it on
a non-empty population (on an empty list Python would raise
ValueError). -/
def pyListMax : List ℚ → ℚ
  | [] => 0
  | x :: xs => xs.foldl max x

/-- `np.mean` of a list of floats. -/
def npMean (l : List ℚ) : ℚ := l.sum / (l.length : ℚ)

/-- The i-less-than-j pairwise distances iterated by
`_calculate_diversity`. -/
def pairDists {G : Type} (dist : G → G → ℚ) : List G → List ℚ
  | [] => []
  | x :: xs => xs.map (dist x) ++ pairDists dist xs

/-- `PersonalityEvolution._calculate_diversity`
(personality_evolution.py lines 85-97): 0 for an empty population or no
pairs, else the mean pairwise distance.  `_genome_distance` is not
defined under src; it is the oracle `dist`. -/
def calculate_diversity {G : Type} (dist : G → G → ℚ) (pop : List G) : ℚ :=
  if pop.isEmpty then 0
  else if (pairDists dist pop).isEmpty then 0 else npMean (pairDists dist pop)

/-- The Python truthiness test
`if target_fitness and max_fitness >= target_fitness`
(personality_evolution.py line 53): `None` and `0.0` are both falsy, so
the early stop fires only for a non-zero target that has been
reached. -/
def truthy_stop (target : Option ℚ) (maxF : ℚ) : Bool :=
  match target with
  | none => false
  | some t => decide (t ≠ 0) && decide (t ≤ maxF)

/-- The generational loop of `PersonalityEvolution.evolve`
(personality_evolution.py lines 32-72), parameters:
`fitness` is the externally supplied fitness function; `sel` abstracts
`_select_parents` (called on line 57 but not defined under src — spec
section 9 leaves the policy open); `repro` abstracts one iteration of
the offspring loop (lines 60-68: `np.random.choice` of two distinct
parents, `_crossover`, mutation at the evolution temperature), mapping
generation index, offspring slot and parent list to a new genome;
`dist` is the genome distance used by the diversity metric.
Arguments: generations remaining, current generation index, current
population, history so far. -/
def evolve_go {G : Type} (fitness : G → ℚ) (sel : List ℚ → List G → List G)
    (repro : ℕ → ℕ → List G → G) (dist : G → G → ℚ) (popSize : ℕ) (target : Option ℚ) :
    ℕ → ℕ → List G → List HistEntry → List HistEntry × List G
  | 0, _, pop, hist => (hist, pop)
  | n+1, g, pop, hist =>
      if truthy_stop target (pyListMax (pop.map fitness))
      then (hist ++ [⟨g, pyListMax (pop.map fitness), npMean (pop.map fitness),
        calculate_diversity dist pop⟩], pop)
      else evolve_go fitness sel repro dist popSize target n (g+1)
        ((List.range popSize).map (fun k => repro g k (sel (pop.map fitness) pop)))
        (hist ++ [⟨g, pyListMax (pop.map fitness), npMean (pop.map fitness),
          calculate_diversity dist pop⟩])

/-- `PersonalityEvolution.evolve(generations, fitness_func,
target_fitness)` started on the population `pop0`, returning the
history and the final population. -/
def PersonalityEvolution.evolve {G : Type} (fitness : G → ℚ) (sel : List ℚ → List G → List G)
    (repro : ℕ → ℕ → List G → G) (dist : G → G → ℚ) (popSize : ℕ) (target : Option ℚ)
    (generations : ℕ) (pop0 : List G) : List HistEntry × List G :=
  evolve_go fitness sel repro dist popSize target generations 0 pop0 []

lemma evolve_go_hist_acc {G : Type} (fitness : G → ℚ) (sel : List ℚ → List G → List G)
    (repro : ℕ → ℕ → List G → G) (dist : G → G → ℚ) (popSize : ℕ) (target : Option ℚ) :
    ∀ (n g : ℕ) (pop : List G) (hist : List HistEntry),
      (evolve_go fitness sel repro dist popSize target n g pop hist).1
        = hist ++ (evolve_go fitness sel repro dist popSize target n g pop []).1
      ∧ (evolve_go fitness sel repro dist popSize target n g pop hist).2
        = (evolve_go fitness sel repro dist popSize target n g pop []).2 := by
  intro n
  induction n with
  | zero =>
      intro g pop hist
      simp [evolve_go]
  | succ n ih =>
      intro g pop hist
      show ((if truthy_stop target (pyListMax (pop.map fitness)) then _ else _ : List HistEntry × List G).1 = _)
        ∧ _
      by_cases hstop : truthy_stop target (pyListMax (pop.map fitness)) = true
      · simp only [evolve_go, if_pos hstop]
        simp
      · simp only [evolve_go, if_neg hstop]
        have h1 := ih (g+1) ((List.range popSize).map (fun k => repro g k (sel (pop.map fitness) pop)))
          (hist ++ [⟨g, pyListMax (pop.map fitness), npMean (pop.map fitness),
            calculate_diversity dist pop⟩])
        have h2 := ih (g+1) ((List.range popSize).map (fun k => repro g k (sel (pop.map fitness) pop)))
          ([] ++ [⟨g, pyListMax (pop.map fitness), npMean (pop.map fitness),
            calculate_diversity dist pop⟩])
        constructor
        · rw [h1.1, h2.1]
          simp
        · rw [h1.2, h2.2]

lemma evolve_go_props {G : Type} (fitness : G → ℚ) (sel : List ℚ → List G → List G)
    (repro : ℕ → ℕ → List G → G) (dist : G → G → ℚ) (popSize : ℕ) (target : Option ℚ) :
    ∀ (n g : ℕ) (pop : List G), pop.length = popSize →
      (evolve_go fitness sel repro dist popSize target n g pop []).1.length ≤ n
      ∧ (evolve_go fitness sel repro dist popSize target n g pop []).2.length = popSize
      ∧ ((target = none ∨ target = some 0) →
          (evolve_go fitness sel repro dist popSize target n g pop []).1.length = n)
      ∧ (∀ e ∈ (evolve_go fitness sel repro dist popSize target n g pop []).1.dropLast,
          truthy_stop target e.max_fitness = false)
      ∧ ((evolve_go fitness sel repro dist popSize target n g pop []).1.length < n →
          ∃ e, (evolve_go fitness sel repro dist popSize target n g pop []).1.getLast? = some e
            ∧ truthy_stop target e.max_fitness = true)
      ∧ (evolve_go fitness sel repro dist popSize target n g pop []).1.map
          (fun e => e.generation)
        = List.range' g (evolve_go fitness sel repro dist popSize target n g pop []).1.length := by
  intro n
  induction n with
  | zero =>
      intro g pop hsz
      refine ⟨le_refl 0, hsz, fun _ => rfl, ?_, ?_, rfl⟩
      · intro e he
        simp [evolve_go] at he
      · intro h
        exact absurd h (by simp [evolve_go])
  | succ n ih =>
      intro g pop hsz
      by_cases hstop : truthy_stop target (pyListMax (pop.map fitness)) = true
      · have hr : evolve_go fitness sel repro dist popSize target (n+1) g pop []
            = ([⟨g, pyListMax (pop.map fitness), npMean (pop.map fitness),
                calculate_diversity dist pop⟩], pop) := by
          simp only [evolve_go, if_pos hstop]
          simp
        rw [hr]
        refine ⟨by simp, hsz, ?_, ?_, ?_, by simp [List.range']⟩
        · rintro (rfl | rfl)
          · simp [truthy_stop] at hstop
          · simp [truthy_stop] at hstop
        · intro e he
          simp at he
        · intro _
          exact ⟨_, rfl, hstop⟩
      · have hnew : ((List.range popSize).map
            (fun k => repro g k (sel (pop.map fitness) pop))).length = popSize := by
          simp
        have ihr := ih (g+1) ((List.range popSize).map
          (fun k => repro g k (sel (pop.map fitness) pop))) hnew
        have hacc := evolve_go_hist_acc fitness sel repro dist popSize target n (g+1)
          ((List.range popSize).map (fun k => repro g k (sel (pop.map fitness) pop)))
          [⟨g, pyListMax (pop.map fitness), npMean (pop.map fitness),
            calculate_diversity dist pop⟩]
        have hr : evolve_go fitness sel repro dist popSize target (n+1) g pop []
            = (⟨g, pyListMax (pop.map fitness), npMean (pop.map fitness),
                calculate_diversity dist pop⟩
              :: (evolve_go fitness sel repro dist popSize target n (g+1)
                ((List.range popSize).map (fun k => repro g k (sel (pop.map fitness) pop)))
                []).1,
              (evolve_go fitness sel repro dist popSize target n (g+1)
                ((List.range popSize).map (fun k => repro g k (sel (pop.map fitness) pop)))
                []).2) := by
          have hbody : evolve_go fitness sel repro dist popSize target (n+1) g pop []
              = evolve_go fitness sel repro dist popSize target n (g+1)
                ((List.range popSize).map (fun k => repro g k (sel (pop.map fitness) pop)))
                [⟨g, pyListMax (pop.map fitness), npMean (pop.map fitness),
                  calculate_diversity dist pop⟩] := by
            simp only [evolve_go, if_neg hstop, List.nil_append]
          rw [hbody]
          rw [Prod.ext_iff]
          constructor
          · rw [hacc.1]
            rfl
          · rw [hacc.2]
        rw [hr]
        obtain ⟨ih1, ih2, ih3, ih4, ih5, ih6⟩ := ihr
        refine ⟨?_, ih2, ?_, ?_, ?_, ?_⟩
        · simpa using Nat.succ_le_succ ih1
        · intro hft
          simp only [List.length_cons]
          rw [ih3 hft]
        · intro e he
          rcases hnil : (evolve_go fitness sel repro dist popSize target n (g+1)
              ((List.range popSize).map (fun k => repro g k (sel (pop.map fitness) pop)))
              []).1 with _ | ⟨a, l⟩
          · rw [hnil] at he
            simp at he
          · rw [hnil] at he
            rw [List.dropLast_cons₂] at he
            rcases List.mem_cons.1 he with rfl | he2
            · simpa using hstop
            · apply ih4
              rw [hnil]
              exact he2
        · intro hlt
          simp only [List.length_cons] at hlt
          have hlt2 := Nat.lt_of_succ_lt_succ hlt
          obtain ⟨e, he1, he2⟩ := ih5 hlt2
          refine ⟨e, ?_, he2⟩
          rcases hnil : (evolve_go fitness sel repro dist popSize target n (g+1)
              ((List.range popSize).map (fun k => repro g k (sel (pop.map fitness) pop)))
              []).1 with _ | ⟨a, l⟩
          · rw [hnil] at he1
            simp at he1
          · rw [hnil] at he1
            rw [List.getLast?_cons_cons]
            exact he1
        · simp only [List.map_cons, List.length_cons]
          rw [ih6]
          rfl

/-- The property of the amended C4: `evolve` runs at most `generations`
generations; the final population has exactly `popSize` genomes; with a
falsy target (None or 0) the loop never stops early and produces one
history entry per generation; every non-final generation failed the
(truthiness-guarded) stop test; a short history ends in a generation
that passed it; and history entries carry consecutive generation
indices starting at 0, so the history has terminationGeneration+1
entries. -/
def EvolveClaim {G : Type} (fitness : G → ℚ) (sel : List ℚ → List G → List G)
    (repro : ℕ → ℕ → List G → G) (dist : G → G → ℚ) (popSize : ℕ) (target : Option ℚ)
    (generations : ℕ) (pop0 : List G) : Prop :=
  (PersonalityEvolution.evolve fitness sel repro dist popSize target generations pop0).1.length
      ≤ generations
  ∧ (PersonalityEvolution.evolve fitness sel repro dist popSize target generations pop0).2.length
      = popSize
  ∧ ((target = none ∨ target = some 0) →
      (PersonalityEvolution.evolve fitness sel repro dist popSize target
        generations pop0).1.length = generations)
  ∧ (∀ e ∈ (PersonalityEvolution.evolve fitness sel repro dist popSize target
        generations pop0).1.dropLast,
      truthy_stop target e.max_fitness = false)
  ∧ ((PersonalityEvolution.evolve fitness sel repro dist popSize target
        generations pop0).1.length < generations →
      ∃ e, (PersonalityEvolution.evolve fitness sel repro dist popSize target
          generations pop0).1.getLast? = some e
        ∧ truthy_stop target e.max_fitness = true)
  ∧ (PersonalityEvolution.evolve fitness sel repro dist popSize target
        generations pop0).1.map (fun e => e.generation)
      = List.range (PersonalityEvolution.evolve fitness sel repro dist popSize target
        generations pop0).1.length

/-- C4 as amended: the generational loop stops early only when the
target fitness is truthy (non-None and non-zero) and reached; in
particular with targetFitness 0 it never stops early.  History length
and population size behave as claimed. -/
theorem c4_evolve_amended {G : Type} (fitness : G → ℚ) (sel : List ℚ → List G → List G)
    (repro : ℕ → ℕ → List G → G) (dist : G → G → ℚ) (popSize : ℕ) (target : Option ℚ)
    (generations : ℕ) (pop0 : List G) (hpos : 0 < popSize) (hsz : pop0.length = popSize) :
    EvolveClaim fitness sel repro dist popSize target generations pop0 := by
  have h := evolve_go_props fitness sel repro dist popSize target generations 0 pop0 hsz
  obtain ⟨h1, h2, h3, h4, h5, h6⟩ := h
  refine ⟨h1, h2, h3, h4, h5, ?_⟩
  rw [List.range_eq_range']
  exact h6

/-- C4 witness: the amended theorem applied to a singleton population
of unit genomes with no target over one generation. -/
theorem c4_evolve_amended_witness :
    EvolveClaim (G := Unit) (fun _ => 0) (fun _ p => p) (fun _ _ _ => ()) (fun _ _ => 0)
      1 none 1 [()] :=
  c4_evolve_amended (fun _ => 0) (fun _ p => p) (fun _ _ _ => ()) (fun _ _ => 0)
    1 none 1 [()] (by decide) (by decide)

/-- C4 counterexample: with targetFitness = 0 and every fitness equal
to 0, the maximum fitness of generation 0 already reaches the target,
yet the loop runs both requested generations (history has 2 entries,
not 1), because Python treats `target_fitness = 0` as falsy in
`if target_fitness and max_fitness >= target_fitness`. -/
theorem c4_counterexample :
    (PersonalityEvolution.evolve (G := Unit) (fun _ => 0) (fun _ p => p) (fun _ _ _ => ())
        (fun _ _ => 0) 1 (some 0) 2 [()]).1.length = 2
    ∧ (PersonalityEvolution.evolve (G := Unit) (fun _ => 0) (fun _ p => p) (fun _ _ _ => ())
        (fun _ _ => 0) 1 (some 0) 2 [()]).1.map (fun e => e.max_fitness) = [0, 0] := by
  constructor
  · decide
  · decide

/-! ### The simulation chain (monte_carlo.py lines 99-146) -/

namespace MonteCarloAnalyzer

/-- One Metropolis step of the innermost loop of `run_simulation_async`
(monte_carlo.py lines 118-145): generate a response for the prompt,
build the proposed state, accept when `_accept_state` says so, else
retain the current state.  `gen` abstracts `_process_single_prompt`
(the Generator call for a prompt), `noise` the scoring noise draw and
`urand` the uniform acceptance draw, all indexed by the global step
counter `idx`. -/
noncomputable def mc_step (gen : ℕ → String → String) (noise urand : ℕ → ℝ)
    (temp : ℝ) (prompt : String) (idx : ℕ) (cur : MCState) : Except String MCState :=
  match accept_state
    ((create_state_from_response (gen idx prompt) cur.personality temp
      (some cur) (noise idx)).energy.sub cur.energy) temp (urand idx) with
  | Except.error e => Except.error e
  | Except.ok b => Except.ok (if b
      then create_state_from_response (gen idx prompt) cur.personality temp (some cur) (noise idx)
      else cur)

/-- The per-temperature prompt loop: one Metropolis step per prompt,
appending the current state after every step (the chain grows by
exactly one entry per step). -/
noncomputable def prompts_loop (gen : ℕ → String → String) (noise urand : ℕ → ℝ) (temp : ℝ) :
    List String → MCState → List MCState → ℕ → Except String (MCState × List MCState × ℕ)
  | [], cur, states, idx => Except.ok (cur, states, idx)
  | p :: ps, cur, states, idx =>
      match mc_step gen noise urand temp p idx cur with
      | Except.error e => Except.error e
      | Except.ok next => prompts_loop gen noise urand temp ps next (states ++ [next]) (idx + 1)

/-- `for step in range(steps_per_temp)`: repeat the prompt loop. -/
noncomputable def steps_loop (gen : ℕ → String → String) (noise urand : ℕ → ℝ) (temp : ℝ)
    (prompts : List String) :
    ℕ → MCState → List MCState → ℕ → Except String (MCState × List MCState × ℕ)
  | 0, _cur, states, idx => Except.ok (_cur, states, idx)
  | n+1, cur, states, idx =>
      match prompts_loop gen noise urand temp prompts cur states idx with
      | Except.error e => Except.error e
      | Except.ok (c2, s2, i2) => steps_loop gen noise urand temp prompts n c2 s2 i2

/-- `for temp in temperature_schedule`: walk the schedule. -/
noncomputable def temps_loop (gen : ℕ → String → String) (noise urand : ℕ → ℝ)
    (prompts : List String) (steps_per_temp : ℕ) :
    List ℝ → MCState → List MCState → ℕ → Except String (MCState × List MCState × ℕ)
  | [], cur, states, idx => Except.ok (cur, states, idx)
  | t :: ts, cur, states, idx =>
      match steps_loop gen noise urand t prompts steps_per_temp cur states idx with
      | Except.error e => Except.error e
      | Except.ok (c2, s2, i2) => temps_loop gen noise urand prompts steps_per_temp ts c2 s2 i2

/-- `MonteCarloAnalyzer.run_simulation_async` with an explicitly
supplied temperature schedule (monte_carlo.py lines 99-146; the `None`
default builds `np.linspace(0.1, 2.0, n_steps)` instead and is not
exercised by the claims).  The initial state is appended before the
loops; `steps_per_temp = n_steps // len(temperature_schedule)`.  Empty
prompts would raise IndexError at `prompts[0]`; an empty schedule would
raise ZeroDivisionError in the floor division. -/
noncomputable def run_simulation_async (gen : ℕ → String → String) (noise urand : ℕ → ℝ)
    (personality : Personality) (prompts : List String) (n_steps : ℕ) (schedule : List ℝ) :
    Except String (List MCState) :=
  if prompts.isEmpty then Except.error "IndexError"
  else if schedule.isEmpty then Except.error "ZeroDivisionError"
  else
    match temps_loop gen noise urand prompts (n_steps / schedule.length) schedule
      (init_state personality) [init_state personality] 0 with
    | Except.error e => Except.error e
    | Except.ok (_, states, _) => Except.ok states

end MonteCarloAnalyzer

lemma prompts_loop_length (gen : ℕ → String → String) (noise urand : ℕ → ℝ) (temp : ℝ) :
    ∀ (ps : List String) (cur : MCState) (states : List MCState) (idx : ℕ)
      (c2 : MCState) (s2 : List MCState) (i2 : ℕ),
      MonteCarloAnalyzer.prompts_loop gen noise urand temp ps cur states idx
        = Except.ok (c2, s2, i2) →
      s2.length = states.length + ps.length := by
  intro ps
  induction ps with
  | nil =>
      intro cur states idx c2 s2 i2 h
      simp only [MonteCarloAnalyzer.prompts_loop, Except.ok.injEq, Prod.mk.injEq] at h
      obtain ⟨h1, h2, h3⟩ := h
      rw [← h2]
      simp
  | cons p ps ih =>
      intro cur states idx c2 s2 i2 h
      simp only [MonteCarloAnalyzer.prompts_loop] at h
      cases hm : MonteCarloAnalyzer.mc_step gen noise urand temp p idx cur with
      | error e => rw [hm] at h; exact absurd h (by simp)
      | ok next =>
          rw [hm] at h
          have hlen := ih next (states ++ [next]) (idx + 1) c2 s2 i2 h
          have happ : (states ++ [next]).length = states.length + 1 := by simp
          rw [hlen, happ]
          simp only [List.length_cons]
          omega

lemma steps_loop_length (gen : ℕ → String → String) (noise urand : ℕ → ℝ) (temp : ℝ)
    (prompts : List String) :
    ∀ (n : ℕ) (cur : MCState) (states : List MCState) (idx : ℕ)
      (c2 : MCState) (s2 : List MCState) (i2 : ℕ),
      MonteCarloAnalyzer.steps_loop gen noise urand temp prompts n cur states idx
        = Except.ok (c2, s2, i2) →
      s2.length = states.length + n * prompts.length := by
  intro n
  induction n with
  | zero =>
      intro cur states idx c2 s2 i2 h
      simp only [MonteCarloAnalyzer.steps_loop, Except.ok.injEq, Prod.mk.injEq] at h
      obtain ⟨h1, h2, h3⟩ := h
      rw [← h2]
      simp
  | succ n ih =>
      intro cur states idx c2 s2 i2 h
      simp only [MonteCarloAnalyzer.steps_loop] at h
      cases hm : MonteCarloAnalyzer.prompts_loop gen noise urand temp prompts cur states idx with
      | error e => rw [hm] at h; exact absurd h (by simp)
      | ok r =>
          obtain ⟨c1, s1, i1⟩ := r
          rw [hm] at h
          have h1 := prompts_loop_length gen noise urand temp prompts cur states idx c1 s1 i1 hm
          have h2 := ih c1 s1 i1 c2 s2 i2 h
          rw [h2, h1]
          ring

lemma temps_loop_length (gen : ℕ → String → String) (noise urand : ℕ → ℝ)
    (prompts : List String) (spt : ℕ) :
    ∀ (ts : List ℝ) (cur : MCState) (states : List MCState) (idx : ℕ)
      (c2 : MCState) (s2 : List MCState) (i2 : ℕ),
      MonteCarloAnalyzer.temps_loop gen noise urand prompts spt ts cur states idx
        = Except.ok (c2, s2, i2) →
      s2.length = states.length + ts.length * (spt * prompts.length) := by
  intro ts
  induction ts with
  | nil =>
      intro cur states idx c2 s2 i2 h
      simp only [MonteCarloAnalyzer.temps_loop, Except.ok.injEq, Prod.mk.injEq] at h
      obtain ⟨h1, h2, h3⟩ := h
      rw [← h2]
      simp
  | cons t ts ih =>
      intro cur states idx c2 s2 i2 h
      simp only [MonteCarloAnalyzer.temps_loop] at h
      cases hm : MonteCarloAnalyzer.steps_loop gen noise urand t prompts spt cur states idx with
      | error e => rw [hm] at h; exact absurd h (by simp)
      | ok r =>
          obtain ⟨c1, s1, i1⟩ := r
          rw [hm] at h
          have h1 := steps_loop_length gen noise urand t prompts spt cur states idx c1 s1 i1 hm
          have h2 := ih c1 s1 i1 c2 s2 i2 h
          rw [h2, h1]
          simp only [List.length_cons]
          ring

lemma temps_loop_zero (gen : ℕ → String → String) (noise urand : ℕ → ℝ)
    (prompts : List String) :
    ∀ (ts : List ℝ) (cur : MCState) (states : List MCState) (idx : ℕ),
      MonteCarloAnalyzer.temps_loop gen noise urand prompts 0 ts cur states idx
        = Except.ok (cur, states, idx) := by
  intro ts
  induction ts with
  | nil => intro cur states idx; rfl
  | cons t ts ih =>
      intro cur states idx
      show MonteCarloAnalyzer.temps_loop gen noise urand prompts 0 ts cur states idx
        = Except.ok (cur, states, idx)
      exact ih cur states idx

/-- The property of C10: whenever `run_simulation_async` returns a
state list, its length is exactly
`1 + len(schedule) * steps_per_temp * len(prompts)` with
`steps_per_temp = n_steps // len(schedule)`; and whenever the schedule
has more entries than `n_steps`, the call returns exactly the single
zero-initialized starting state (for every generator and noise oracle,
so no Generator call or Metropolis step can have influenced it). -/
def RunSimClaim (gen : ℕ → String → String) (noise urand : ℕ → ℝ)
    (personality : Personality) (prompts : List String) (n_steps : ℕ)
    (schedule : List ℝ) : Prop :=
  (∀ states, MonteCarloAnalyzer.run_simulation_async gen noise urand personality prompts
      n_steps schedule = Except.ok states →
    states.length = 1 + schedule.length * ((n_steps / schedule.length) * prompts.length))
  ∧ (n_steps < schedule.length →
      MonteCarloAnalyzer.run_simulation_async gen noise urand personality prompts
          n_steps schedule
        = Except.ok [MonteCarloAnalyzer.init_state personality]
      ∧ (MonteCarloAnalyzer.init_state personality).temperature = 1/10
      ∧ (MonteCarloAnalyzer.init_state personality).energy = PyFloat.fin 0
      ∧ (MonteCarloAnalyzer.init_state personality).entropy = 0
      ∧ (MonteCarloAnalyzer.init_state personality).enthalpy = PyFloat.fin 0
      ∧ (MonteCarloAnalyzer.init_state personality).coherence = 0
      ∧ (MonteCarloAnalyzer.init_state personality).phase = "coherent")

/-- C10: the chain length accounting of `run_simulation_async`, and the
degenerate runs where the supplied schedule is longer than `n_steps`. -/
theorem c10_run_simulation_counts (gen : ℕ → String → String) (noise urand : ℕ → ℝ)
    (personality : Personality) (prompts : List String) (n_steps : ℕ) (schedule : List ℝ)
    (hp : prompts ≠ []) :
    RunSimClaim gen noise urand personality prompts n_steps schedule := by
  have hpe : prompts.isEmpty = false := by
    cases prompts with
    | nil => exact absurd rfl hp
    | cons a l => rfl
  constructor
  · intro states h
    unfold MonteCarloAnalyzer.run_simulation_async at h
    rw [hpe] at h
    simp only [Bool.false_eq_true, if_false] at h
    by_cases hse : schedule.isEmpty = true
    · rw [if_pos hse] at h
      exact absurd h (by simp)
    · rw [if_neg hse] at h
      cases hm : MonteCarloAnalyzer.temps_loop gen noise urand prompts
          (n_steps / schedule.length) schedule (MonteCarloAnalyzer.init_state personality)
          [MonteCarloAnalyzer.init_state personality] 0 with
      | error e => rw [hm] at h; exact absurd h (by simp)
      | ok r =>
          obtain ⟨c1, s1, i1⟩ := r
          rw [hm] at h
          simp only [Except.ok.injEq] at h
          rw [← h]
          have := temps_loop_length gen noise urand prompts (n_steps / schedule.length)
            schedule (MonteCarloAnalyzer.init_state personality)
            [MonteCarloAnalyzer.init_state personality] 0 c1 s1 i1 hm
          rw [this]
          simp only [List.length_singleton]
  · intro hlen
    have hs0 : n_steps / schedule.length = 0 := Nat.div_eq_of_lt hlen
    have hse : schedule.isEmpty = false := by
      cases schedule with
      | nil => simp at hlen
      | cons a l => rfl
    refine ⟨?_, rfl, rfl, rfl, rfl, rfl, rfl⟩
    unfold MonteCarloAnalyzer.run_simulation_async
    rw [hpe, hse]
    simp only [Bool.false_eq_true, if_false]
    rw [hs0]
    rw [temps_loop_zero gen noise urand prompts schedule
      (MonteCarloAnalyzer.init_state personality)
      [MonteCarloAnalyzer.init_state personality] 0]

/-- C10 witness: the theorem applied to the one-prompt schedule `[1]`
with `n_steps = 0`, where the run returns only the initial state. -/
theorem c10_run_simulation_counts_witness :
    RunSimClaim (fun _ _ => "") (fun _ => 0) (fun _ => 0) [] ["p"] 0 [1] :=
  c10_run_simulation_counts (fun _ _ => "") (fun _ => 0) (fun _ => 0) [] ["p"] 0 [1]
    (by decide)
